import Mathlib

/-!
Shallow embedding of the Thronglets simulation (src/src/main.py).

Modelling conventions:
* Python float coordinates are embedded as real numbers `ℝ`; Python ints
  (energy, timestamps, food coordinates, ids) as `ℤ` / `ℕ`.
* Python's `int(r)` truncates toward zero; it is embedded as `pyInt`.
* The Python `set` of food positions is embedded as a duplicate-free list,
  its order standing for the set's arbitrary-but-deterministic iteration
  order (`min` in `get_nearest_food` scans in that order).
* Every call to the random number generator is replaced by an explicit
  parameter carrying the drawn value: `random.randint` draws become `ℤ`
  arguments, `int(random.expovariate(1.0 / mean))` draws become `ℕ`
  arguments, and `pygame.time.get_ticks()` inside the constructor becomes
  a `ℕ` argument.
* The class-level id counter `Thronglet.counter` is threaded explicitly.
* `other is self` (Python object identity) is modelled as id equality,
  justified by the uniqueness of ids within a run.
* The shared `self.config` dictionary is passed as an explicit `Config`
  argument to each method.
-/

namespace Thronglets

/-- The CONFIG dictionary: the named numeric parameters the core reads. -/
structure Config where
  WORLD_WIDTH : ℝ
  WORLD_HEIGHT : ℝ
  WALK_SPEED : ℤ
  SEEK_SPEED : ℝ
  ENERGY_MAX : ℤ
  ENERGY_GAIN_PER_FOOD : ℤ
  REPLICATION_ENERGY_COST : ℤ
  DROP_FOOD_ENERGY_COST : ℤ
  REPLICATION_INTERVAL_MEAN : ℕ
  INITIAL_THRONGLETS : ℕ

/-- The reference CONFIG values from main.py (colors omitted: never read by the core). -/
def referenceConfig : Config where
  WORLD_WIDTH := 800
  WORLD_HEIGHT := 600
  WALK_SPEED := 2
  SEEK_SPEED := 2.5
  ENERGY_MAX := 50
  ENERGY_GAIN_PER_FOOD := 20
  REPLICATION_ENERGY_COST := 50
  DROP_FOOD_ENERGY_COST := 10
  REPLICATION_INTERVAL_MEAN := 5000
  INITIAL_THRONGLETS := 2

/-- World: owns the food positions (a Python `set` of int pairs, embedded as a
duplicate-free list whose order models the set's iteration order). -/
structure World where
  food : List (ℤ × ℤ)

/-- Squared Euclidean distance key used by `get_nearest_food`:
`(p[0]-x)**2 + (p[1]-y)**2`. -/
def sqDist (x y : ℤ) (p : ℤ × ℤ) : ℤ :=
  (p.1 - x) ^ 2 + (p.2 - y) ^ 2

/-- World.get_nearest_food: `None` if no food, else `min(self.food, key=...)`.
Python's `min` returns the first element attaining the minimum in iteration
order, hence the strict-improvement fold. -/
def World.get_nearest_food (w : World) (x y : ℤ) : Option (ℤ × ℤ) :=
  match w.food with
  | [] => none
  | p :: ps => some (ps.foldl (fun best q => if sqDist x y q < sqDist x y best then q else best) p)

/-- World.consume_food_at: remove `(x, y)` on exact match and report whether
a removal happened. Returns the flag together with the updated world. -/
def World.consume_food_at (w : World) (x y : ℤ) : Bool × World :=
  if (x, y) ∈ w.food then (true, ⟨w.food.erase (x, y)⟩) else (false, w)

/-- World.add_food_at: `self.food.add((x, y))` — set insertion, a no-op when
the coordinate is already present. -/
def World.add_food_at (w : World) (x y : ℤ) : World :=
  if (x, y) ∈ w.food then w else ⟨w.food ++ [(x, y)]⟩

/-- Thronglet agent state: position (Python floats), energy (int),
absolute next-replication timestamp, and unique id. -/
structure Thronglet where
  x : ℝ
  y : ℝ
  energy : ℤ
  next_replicate : ℕ
  id : ℕ

/-- Python `int()` applied to a real: truncation toward zero. -/
noncomputable def pyInt (r : ℝ) : ℤ :=
  if 0 ≤ r then ⌊r⌋ else ⌈r⌉

/-- Thronglet.__init__: sets position, full energy, schedules the first
replication at `now + interval` (`now` is the `pygame.time.get_ticks()` value
at construction, `interval` the `_random_interval` draw), and assigns
`id := counter + 1`, returning the incremented class counter. -/
def Thronglet.init (x y : ℝ) (cfg : Config) (now interval counter : ℕ) :
    Thronglet × ℕ :=
  (⟨x, y, cfg.ENERGY_MAX, now + interval, counter + 1⟩, counter + 1)

/-- Thronglet._apply_movement: displace and clamp both coordinates into
`[0, WORLD_WIDTH] × [0, WORLD_HEIGHT]` via `max(0, min(bound, coord + d))`. -/
noncomputable def Thronglet._apply_movement (cfg : Config) (t : Thronglet) (dx dy : ℝ) :
    Thronglet :=
  { t with
    x := max 0 (min cfg.WORLD_WIDTH (t.x + dx))
    y := max 0 (min cfg.WORLD_HEIGHT (t.y + dy)) }

/-- Thronglet.move_random: `random.randint(-WALK_SPEED, WALK_SPEED)` on each
axis; the two draws are the explicit arguments `dx`, `dy`. -/
noncomputable def Thronglet.move_random (cfg : Config) (t : Thronglet) (dx dy : ℤ) :
    Thronglet :=
  t._apply_movement cfg (dx : ℝ) (dy : ℝ)

/-- Accumulator loop of Thronglet.move_away_from_others: for every other agent
(`other is self` modelled as id equality) at distance `0 < dist < min_dist`,
add the unit vector pointing away from it and count it. Returns
`(move_x, move_y, count)`. -/
noncomputable def repelAccum (t : Thronglet) (min_dist : ℝ) (thronglets : List Thronglet) :
    ℝ × ℝ × ℕ :=
  thronglets.foldl
    (fun acc other =>
      if other.id = t.id then acc
      else
        let dx := t.x - other.x
        let dy := t.y - other.y
        let dist := Real.sqrt (dx ^ 2 + dy ^ 2)
        if dist < min_dist ∧ dist > 0 then
          (acc.1 + dx / dist, acc.2.1 + dy / dist, acc.2.2 + 1)
        else acc)
    (0, 0, 0)

/-- Thronglet.move_away_from_others: if any neighbor was within range, apply
the accumulated vector scaled by `speed`; otherwise do nothing. The source
default arguments `min_dist=5, speed=1` are supplied at the call site. -/
noncomputable def Thronglet.move_away_from_others (cfg : Config) (t : Thronglet)
    (thronglets : List Thronglet) (min_dist speed : ℝ) : Thronglet :=
  let acc := repelAccum t min_dist thronglets
  if acc.2.2 > 0 then t._apply_movement cfg (acc.1 * speed) (acc.2.1 * speed)
  else t

/-- Thronglet.seek_food: query `world.get_nearest_food(int(x), int(y))`; with
no food fall back to `move_random` (whose two draws are `rdx`, `rdy`);
otherwise step `min(SEEK_SPEED, dist)` along the straight line to the target,
or stand still when already exactly at it. -/
noncomputable def Thronglet.seek_food (cfg : Config) (t : Thronglet) (w : World)
    (rdx rdy : ℤ) : Thronglet :=
  match w.get_nearest_food (pyInt t.x) (pyInt t.y) with
  | none => t.move_random cfg rdx rdy
  | some (tx, ty) =>
    let dx := (tx : ℝ) - t.x
    let dy := (ty : ℝ) - t.y
    let dist := Real.sqrt (dx ^ 2 + dy ^ 2)
    if dist = 0 then t
    else
      let step := min cfg.SEEK_SPEED dist
      t._apply_movement cfg (dx / dist * step) (dy / dist * step)

/-- Thronglet.can_replicate: `current_time >= next_replicate and
energy >= ENERGY_MAX`. -/
def Thronglet.can_replicate (cfg : Config) (t : Thronglet) (current_time : ℕ) : Bool :=
  decide (t.next_replicate ≤ current_time) && decide (cfg.ENERGY_MAX ≤ t.energy)

/-- Thronglet.replicate: deduct `REPLICATION_ENERGY_COST`, reschedule the
parent at `current_time + parentInterval`, and construct the child at the
parent's position via `Thronglet.init` (`ctorNow` is the constructor's
`pygame.time.get_ticks()` value, `childInterval` its `_random_interval` draw).
Returns `(parent, child, counter)` with the class counter incremented. -/
def Thronglet.replicate (cfg : Config) (t : Thronglet) (current_time : ℕ)
    (parentInterval ctorNow childInterval counter : ℕ) : Thronglet × Thronglet × ℕ :=
  let parent := { t with
    energy := t.energy - cfg.REPLICATION_ENERGY_COST
    next_replicate := current_time + parentInterval }
  let r := Thronglet.init parent.x parent.y cfg ctorNow childInterval counter
  (parent, r.1, r.2)

/-- Thronglet.drop_food: if energy covers `DROP_FOOD_ENERGY_COST`, place food
at `(int(x), int(y))` and deduct the cost; otherwise do nothing. -/
noncomputable def Thronglet.drop_food (cfg : Config) (t : Thronglet) (w : World) :
    Thronglet × World :=
  let cost := cfg.DROP_FOOD_ENERGY_COST
  if cost ≤ t.energy then
    ({ t with energy := t.energy - cost }, w.add_food_at (pyInt t.x) (pyInt t.y))
  else (t, w)

/-- Thronglet.forage: try to consume food at `(int(x), int(y))`; on success
gain `ENERGY_GAIN_PER_FOOD` clamped at `ENERGY_MAX`. -/
noncomputable def Thronglet.forage (cfg : Config) (t : Thronglet) (w : World) :
    Thronglet × World :=
  let r := w.consume_food_at (pyInt t.x) (pyInt t.y)
  if r.1 then
    ({ t with energy := min cfg.ENERGY_MAX (t.energy + cfg.ENERGY_GAIN_PER_FOOD) }, r.2)
  else (t, r.2)

/-- Random draws consumed by a single `update` call: the two `randint` draws
used by whichever movement fallback runs, and the replication-path draws
(parent's new interval, the constructor clock reading, the child's first
interval). -/
structure Draws where
  dx : ℤ
  dy : ℤ
  parentInterval : ℕ
  ctorNow : ℕ
  childInterval : ℕ

/-- Thronglet.update: separation, then foraging, then exactly one of
seek-food / replicate / random-walk, per the if/elif/else chain of the
source. Returns the updated self, the updated world, the optional newborn,
and the updated class counter. -/
noncomputable def Thronglet.update (cfg : Config) (t : Thronglet) (current_time : ℕ)
    (w : World) (thronglets : List Thronglet) (d : Draws) (counter : ℕ) :
    Thronglet × World × Option Thronglet × ℕ :=
  let t1 := t.move_away_from_others cfg thronglets 5 1
  let fr := t1.forage cfg w
  let t2 := fr.1
  let w2 := fr.2
  if t2.next_replicate ≤ current_time ∧ t2.energy < cfg.ENERGY_MAX then
    (t2.seek_food cfg w2 d.dx d.dy, w2, none, counter)
  else if t2.can_replicate cfg current_time then
    let r := t2.replicate cfg current_time d.parentInterval d.ctorNow d.childInterval counter
    (r.1, w2, some r.2.1, r.2.2)
  else
    (t2.move_random cfg d.dx d.dy, w2, none, counter)

/-- Whole-simulation state for the main loop: the world, the live agent list
(iterated in order by the per-tick pass), the newborns collected so far in
the current tick, and the class-level id counter. -/
structure SimState where
  world : World
  agents : List Thronglet
  babies : List Thronglet
  counter : ℕ

/-- One iteration of `for t in thronglets:` — update the agent at index `i`
in place (the roster passed to `update` is the live list, so earlier agents
appear already updated), collect a newborn if one was returned. -/
noncomputable def updateAt (cfg : Config) (now : ℕ) (s : SimState) (i : ℕ) (d : Draws) :
    SimState :=
  match s.agents[i]? with
  | none => s
  | some t =>
    let r := t.update cfg now s.world s.agents d s.counter
    { world := r.2.1
      agents := s.agents.set i r.1
      babies := s.babies ++ r.2.2.1.toList
      counter := r.2.2.2 }

/-- The pass over the first `k` agents of the tick (`for t in thronglets:`
visits indices `0, 1, ...` of the list as it stood at tick start; the list
length never changes during the pass). `draws i` supplies agent `i`'s random
draws. -/
noncomputable def tickPrefix (cfg : Config) (now : ℕ) (draws : ℕ → Draws)
    (s : SimState) (k : ℕ) : SimState :=
  (List.range k).foldl (fun s i => updateAt cfg now s i (draws i)) s

/-- One full tick of the main loop: update every agent of the snapshot in
order, then `thronglets.extend(new_thronglets)` — append all newborns after
the pass completes. -/
noncomputable def tick (cfg : Config) (now : ℕ) (draws : ℕ → Draws) (s : SimState) :
    SimState :=
  let s1 := tickPrefix cfg now draws s s.agents.length
  { s1 with agents := s1.agents ++ s1.babies, babies := [] }

/-- A run of the main loop: fold `tick` over a schedule of
`(current_time, per-agent draws)` pairs. -/
noncomputable def runSim (cfg : Config) (sched : List (ℕ × (ℕ → Draws))) (s : SimState) :
    SimState :=
  sched.foldl (fun s td => tick cfg td.1 td.2 s) s

/-- C8: add_food_at is idempotent: the food collection is a set of unique
integer-coordinate positions, so adding food at an already-occupied coordinate
is a no-op and never increases the size of the food set, and the food set
never contains duplicate coordinates (insertion preserves duplicate-freeness). -/
theorem add_food_at_set_semantics (w : World) (x y : ℤ) :
    ((x, y) ∈ w.food → w.add_food_at x y = w) ∧
    ((x, y) ∈ w.food → (w.add_food_at x y).food.length = w.food.length) ∧
    (w.add_food_at x y).food.length ≤ w.food.length + 1 ∧
    (x, y) ∈ (w.add_food_at x y).food ∧
    (w.food.Nodup → (w.add_food_at x y).food.Nodup) := by
  unfold World.add_food_at
  by_cases h : (x, y) ∈ w.food
  · simp [h]
  · refine ⟨fun h' => absurd h' h, fun h' => absurd h' h, ?_, ?_, ?_⟩
    · simp [h]
    · simp [h]
    · intro hn
      simp [h, List.nodup_append, hn]

/-- Witness for add_food_at_set_semantics at a concrete occupied world. -/
theorem add_food_at_set_semantics_witness :
    (World.mk [(3, 4)]).add_food_at 3 4 = World.mk [(3, 4)] ∧
    ((World.mk [(3, 4)]).add_food_at 3 4).food.length = (World.mk [(3, 4)] : World).food.length ∧
    ((World.mk [(3, 4)]).add_food_at 3 4).food.Nodup :=
  ⟨(add_food_at_set_semantics ⟨[(3, 4)]⟩ 3 4).1 (by decide),
   (add_food_at_set_semantics ⟨[(3, 4)]⟩ 3 4).2.1 (by decide),
   (add_food_at_set_semantics ⟨[(3, 4)]⟩ 3 4).2.2.2.2 (by decide)⟩

/-- C9: consume_food_at removes a food item and returns true exactly when
`(x, y)` is present as an exact coordinate match (the size then drops by one
and, on a duplicate-free food set, the coordinate is gone afterwards); when
no food sits exactly at `(x, y)` it returns false and leaves the food set
completely unchanged. -/
theorem consume_food_at_exact_match (w : World) (x y : ℤ) :
    ((x, y) ∈ w.food →
       (w.consume_food_at x y).1 = true ∧
       (w.consume_food_at x y).2.food = w.food.erase (x, y) ∧
       (w.consume_food_at x y).2.food.length + 1 = w.food.length ∧
       (w.food.Nodup → (x, y) ∉ (w.consume_food_at x y).2.food)) ∧
    ((x, y) ∉ w.food →
       (w.consume_food_at x y).1 = false ∧
       (w.consume_food_at x y).2 = w) := by
  unfold World.consume_food_at
  by_cases h : (x, y) ∈ w.food
  · refine ⟨fun _ => ⟨by simp [h], by simp [h], ?_, fun hn => ?_⟩, fun h' => absurd h h'⟩
    · simp [h, List.length_erase_of_mem h]
      exact Nat.succ_pred_eq_of_pos (List.length_pos_of_mem h)
    · simpa [h] using hn.not_mem_erase
  · exact ⟨fun h' => absurd h' h, fun _ => ⟨by simp [h], by simp [h]⟩⟩

/-- Witness for consume_food_at_exact_match: one present and one absent lookup. -/
theorem consume_food_at_exact_match_witness :
    ((World.mk [(1, 2), (5, 6)]).consume_food_at 1 2).1 = true ∧
    ((World.mk [(1, 2), (5, 6)]).consume_food_at 1 2).2.food.length + 1 =
      (World.mk [(1, 2), (5, 6)] : World).food.length ∧
    ((World.mk [(1, 2), (5, 6)]).consume_food_at 7 8).1 = false ∧
    ((World.mk [(1, 2), (5, 6)]).consume_food_at 7 8).2 = World.mk [(1, 2), (5, 6)] :=
  ⟨((consume_food_at_exact_match ⟨[(1, 2), (5, 6)]⟩ 1 2).1 (by decide)).1,
   ((consume_food_at_exact_match ⟨[(1, 2), (5, 6)]⟩ 1 2).1 (by decide)).2.2.1,
   ((consume_food_at_exact_match ⟨[(1, 2), (5, 6)]⟩ 7 8).2 (by decide)).1,
   ((consume_food_at_exact_match ⟨[(1, 2), (5, 6)]⟩ 7 8).2 (by decide)).2⟩

/-- State of the agent and the world after the two unconditional steps of
`update` (separation with the source defaults, then foraging), before the
three-way decision. -/
noncomputable def preDecisionState (cfg : Config) (t : Thronglet) (w : World)
    (roster : List Thronglet) : Thronglet × World :=
  (t.move_away_from_others cfg roster 5 1).forage cfg w

/-- With an empty roster, separation is a no-op. -/
theorem move_away_from_others_nil (cfg : Config) (t : Thronglet) (md speed : ℝ) :
    t.move_away_from_others cfg [] md speed = t := by
  unfold Thronglet.move_away_from_others repelAccum
  simp

/-- With no food anywhere, foraging changes nothing. -/
theorem forage_no_food (cfg : Config) (t : Thronglet) (w : World) (h : w.food = []) :
    t.forage cfg w = (t, w) := by
  unfold Thronglet.forage World.consume_food_at
  simp [h]

/-- With an empty roster and an empty food set, the unconditional steps of
`update` change nothing. -/
theorem preDecisionState_trivial (cfg : Config) (t : Thronglet) :
    preDecisionState cfg t ⟨[]⟩ [] = (t, ⟨[]⟩) := by
  unfold preDecisionState
  rw [move_away_from_others_nil]
  exact forage_no_food cfg t ⟨[]⟩ rfl

/-- The `update` body as an if/elif/else chain over the post-forage state. -/
theorem update_eq_branches (cfg : Config) (t : Thronglet) (now : ℕ) (w : World)
    (roster : List Thronglet) (d : Draws) (counter : ℕ) :
    t.update cfg now w roster d counter =
      (if (preDecisionState cfg t w roster).1.next_replicate ≤ now ∧
          (preDecisionState cfg t w roster).1.energy < cfg.ENERGY_MAX then
        ((preDecisionState cfg t w roster).1.seek_food cfg (preDecisionState cfg t w roster).2
           d.dx d.dy, (preDecisionState cfg t w roster).2, none, counter)
      else if (preDecisionState cfg t w roster).1.can_replicate cfg now then
        (((preDecisionState cfg t w roster).1.replicate cfg now d.parentInterval d.ctorNow
            d.childInterval counter).1,
         (preDecisionState cfg t w roster).2,
         some ((preDecisionState cfg t w roster).1.replicate cfg now d.parentInterval d.ctorNow
            d.childInterval counter).2.1,
         ((preDecisionState cfg t w roster).1.replicate cfg now d.parentInterval d.ctorNow
            d.childInterval counter).2.2)
      else
        ((preDecisionState cfg t w roster).1.move_random cfg d.dx d.dy,
         (preDecisionState cfg t w roster).2, none, counter)) := rfl

/-- C1: every call to update first applies move_away_from_others, then forage
(together `preDecisionState`), and then executes exactly one of: seek_food
(when `now ≥ next_replicate` and `energy < ENERGY_MAX` hold of the post-forage
state), replicate returning the newborn (whenever `can_replicate now` holds —
the seek guard is then automatically false), or move_random (otherwise); the
three guard events are mutually exclusive and exhaustive, and at most one
child is produced per call. -/
theorem update_decision_policy (cfg : Config) (t : Thronglet) (now : ℕ) (w : World)
    (roster : List Thronglet) (d : Draws) (counter : ℕ) :
    (((preDecisionState cfg t w roster).1.next_replicate ≤ now ∧
        (preDecisionState cfg t w roster).1.energy < cfg.ENERGY_MAX) →
      t.update cfg now w roster d counter =
        ((preDecisionState cfg t w roster).1.seek_food cfg (preDecisionState cfg t w roster).2
           d.dx d.dy, (preDecisionState cfg t w roster).2, none, counter)) ∧
    ((preDecisionState cfg t w roster).1.can_replicate cfg now = true →
      t.update cfg now w roster d counter =
        (((preDecisionState cfg t w roster).1.replicate cfg now d.parentInterval d.ctorNow
            d.childInterval counter).1,
         (preDecisionState cfg t w roster).2,
         some ((preDecisionState cfg t w roster).1.replicate cfg now d.parentInterval d.ctorNow
            d.childInterval counter).2.1,
         ((preDecisionState cfg t w roster).1.replicate cfg now d.parentInterval d.ctorNow
            d.childInterval counter).2.2)) ∧
    (¬((preDecisionState cfg t w roster).1.next_replicate ≤ now ∧
        (preDecisionState cfg t w roster).1.energy < cfg.ENERGY_MAX) →
      (preDecisionState cfg t w roster).1.can_replicate cfg now = false →
      t.update cfg now w roster d counter =
        ((preDecisionState cfg t w roster).1.move_random cfg d.dx d.dy,
         (preDecisionState cfg t w roster).2, none, counter)) ∧
    ¬(((preDecisionState cfg t w roster).1.next_replicate ≤ now ∧
        (preDecisionState cfg t w roster).1.energy < cfg.ENERGY_MAX) ∧
      (preDecisionState cfg t w roster).1.can_replicate cfg now = true) ∧
    (((preDecisionState cfg t w roster).1.next_replicate ≤ now ∧
        (preDecisionState cfg t w roster).1.energy < cfg.ENERGY_MAX) ∨
      (preDecisionState cfg t w roster).1.can_replicate cfg now = true ∨
      (¬((preDecisionState cfg t w roster).1.next_replicate ≤ now ∧
          (preDecisionState cfg t w roster).1.energy < cfg.ENERGY_MAX) ∧
        (preDecisionState cfg t w roster).1.can_replicate cfg now = false)) ∧
    (t.update cfg now w roster d counter).2.2.1.toList.length ≤ 1 := by
  have hrep_energy : (preDecisionState cfg t w roster).1.can_replicate cfg now = true →
      cfg.ENERGY_MAX ≤ (preDecisionState cfg t w roster).1.energy := by
    intro h
    unfold Thronglet.can_replicate at h
    rw [Bool.and_eq_true, decide_eq_true_iff, decide_eq_true_iff] at h
    exact h.2
  have hexcl : ¬(((preDecisionState cfg t w roster).1.next_replicate ≤ now ∧
      (preDecisionState cfg t w roster).1.energy < cfg.ENERGY_MAX) ∧
      (preDecisionState cfg t w roster).1.can_replicate cfg now = true) := by
    rintro ⟨⟨-, hlt⟩, hrep⟩
    exact absurd (hrep_energy hrep) (not_le.mpr hlt)
  refine ⟨?_, ?_, ?_, hexcl, ?_, ?_⟩
  · intro h1
    rw [update_eq_branches, if_pos h1]
  · intro h2
    have h1 : ¬((preDecisionState cfg t w roster).1.next_replicate ≤ now ∧
        (preDecisionState cfg t w roster).1.energy < cfg.ENERGY_MAX) :=
      fun h1 => hexcl ⟨h1, h2⟩
    rw [update_eq_branches, if_neg h1, if_pos h2]
  · intro h1 h2
    rw [update_eq_branches, if_neg h1, if_neg (by simp [h2])]
  · by_cases h1 : ((preDecisionState cfg t w roster).1.next_replicate ≤ now ∧
        (preDecisionState cfg t w roster).1.energy < cfg.ENERGY_MAX)
    · exact Or.inl h1
    · by_cases h2 : (preDecisionState cfg t w roster).1.can_replicate cfg now = true
      · exact Or.inr (Or.inl h2)
      · exact Or.inr (Or.inr ⟨h1, by simpa using h2⟩)
  · rcases h : (t.update cfg now w roster d counter).2.2.1 with - | b <;> simp

/-- Witness for update_decision_policy: a lone agent with a far-future
replication timer takes the move_random branch. -/
theorem update_decision_policy_witness :
    Thronglet.update referenceConfig ⟨0, 0, 50, 100, 1⟩ 0 ⟨[]⟩ [] ⟨1, 1, 7, 0, 9⟩ 1 =
      ((preDecisionState referenceConfig ⟨0, 0, 50, 100, 1⟩ ⟨[]⟩ []).1.move_random
         referenceConfig 1 1,
       (preDecisionState referenceConfig ⟨0, 0, 50, 100, 1⟩ ⟨[]⟩ []).2, none, 1) := by
  have hpre := preDecisionState_trivial referenceConfig ⟨0, 0, 50, 100, 1⟩
  refine (update_decision_policy referenceConfig ⟨0, 0, 50, 100, 1⟩ 0 ⟨[]⟩ [] ⟨1, 1, 7, 0, 9⟩
      1).2.2.1 ?_ ?_
  · rw [hpre]
    decide
  · rw [hpre]
    decide

/-- C2: can_replicate holds iff `now ≥ next_replicate` and
`energy ≥ ENERGY_MAX`; update only ever returns a newborn when this gate
holds of the post-forage state; and replicate deducts
`REPLICATION_ENERGY_COST` from the parent, reschedules the parent at `now`
plus the freshly drawn interval, and returns a child at the parent's current
position with full energy and the freshly incremented (hence unique, given
that the counter dominates all live ids) id. -/
theorem can_replicate_replicate_spec (cfg : Config) (t : Thronglet)
    (now parentInterval ctorNow childInterval counter : ℕ) (roster : List Thronglet) :
    (t.can_replicate cfg now = true ↔
      (t.next_replicate ≤ now ∧ cfg.ENERGY_MAX ≤ t.energy)) ∧
    ((t.replicate cfg now parentInterval ctorNow childInterval counter).1.energy =
        t.energy - cfg.REPLICATION_ENERGY_COST ∧
      (t.replicate cfg now parentInterval ctorNow childInterval counter).1.next_replicate =
        now + parentInterval ∧
      (t.replicate cfg now parentInterval ctorNow childInterval counter).1.x = t.x ∧
      (t.replicate cfg now parentInterval ctorNow childInterval counter).1.y = t.y ∧
      (t.replicate cfg now parentInterval ctorNow childInterval counter).1.id = t.id) ∧
    ((t.replicate cfg now parentInterval ctorNow childInterval counter).2.1.x = t.x ∧
      (t.replicate cfg now parentInterval ctorNow childInterval counter).2.1.y = t.y ∧
      (t.replicate cfg now parentInterval ctorNow childInterval counter).2.1.energy =
        cfg.ENERGY_MAX ∧
      (t.replicate cfg now parentInterval ctorNow childInterval counter).2.1.next_replicate =
        ctorNow + childInterval ∧
      (t.replicate cfg now parentInterval ctorNow childInterval counter).2.1.id = counter + 1 ∧
      (t.replicate cfg now parentInterval ctorNow childInterval counter).2.2 = counter + 1) ∧
    ((∀ a ∈ roster, a.id ≤ counter) →
      (t.replicate cfg now parentInterval ctorNow childInterval counter).2.1.id ∉
        roster.map Thronglet.id) ∧
    (∀ (w : World) (thronglets : List Thronglet) (d : Draws) (b : Thronglet),
      (t.update cfg now w thronglets d counter).2.2.1 = some b →
      (preDecisionState cfg t w thronglets).1.can_replicate cfg now = true) := by
  refine ⟨?_, ⟨rfl, rfl, rfl, rfl, rfl⟩, ⟨rfl, rfl, rfl, rfl, rfl, rfl⟩, ?_, ?_⟩
  · unfold Thronglet.can_replicate
    rw [Bool.and_eq_true, decide_eq_true_iff, decide_eq_true_iff]
  · intro hdom hmem
    rcases List.mem_map.mp hmem with ⟨a, ha, hid⟩
    have : a.id ≤ counter := hdom a ha
    have : (t.replicate cfg now parentInterval ctorNow childInterval counter).2.1.id =
        counter + 1 := rfl
    omega
  · intro w thronglets d b hb
    rw [update_eq_branches] at hb
    by_cases h1 : ((preDecisionState cfg t w thronglets).1.next_replicate ≤ now ∧
        (preDecisionState cfg t w thronglets).1.energy < cfg.ENERGY_MAX)
    · rw [if_pos h1] at hb
      exact absurd hb (by simp)
    · rw [if_neg h1] at hb
      by_cases h2 : (preDecisionState cfg t w thronglets).1.can_replicate cfg now = true
      · exact h2
      · rw [if_neg (by simpa using h2)] at hb
        exact absurd hb (by simp)

/-- Witness for can_replicate_replicate_spec: a due, fully-fed agent, a
roster dominated by the counter, and an update call that returns a newborn. -/
theorem can_replicate_replicate_spec_witness :
    (Thronglet.can_replicate referenceConfig ⟨0, 0, 50, 3, 1⟩ 5 = true ↔
      ((3 : ℕ) ≤ 5 ∧ (50 : ℤ) ≤ 50)) ∧
    ((Thronglet.replicate referenceConfig ⟨0, 0, 50, 3, 1⟩ 5 7 6 11 1).2.1.id ∉
      ([⟨0, 0, 50, 3, 1⟩] : List Thronglet).map Thronglet.id) ∧
    (Thronglet.can_replicate referenceConfig
      (preDecisionState referenceConfig ⟨0, 0, 50, 3, 1⟩ ⟨[]⟩ []).1 5 = true) := by
  have h := can_replicate_replicate_spec referenceConfig ⟨0, 0, 50, 3, 1⟩ 5 7 6 11 1
    [⟨0, 0, 50, 3, 1⟩]
  refine ⟨h.1, h.2.2.2.1 ?_, ?_⟩
  · intro a ha
    rcases List.mem_singleton.mp ha with rfl
    decide
  · refine h.2.2.2.2 ⟨[]⟩ [] ⟨1, 1, 7, 6, 11⟩
      (Thronglet.replicate referenceConfig ⟨0, 0, 50, 3, 1⟩ 5 7 6 11 1).2.1 ?_
    rw [update_eq_branches, preDecisionState_trivial]
    rw [if_neg (by decide), if_pos (by decide)]

/-- Euclidean distance from agent `t` to agent `o`, as computed inside
move_away_from_others. -/
noncomputable def neighborDist (t o : Thronglet) : ℝ :=
  Real.sqrt ((t.x - o.x) ^ 2 + (t.y - o.y) ^ 2)

/-- Whether `o` triggers repulsion on `t`: a distinct agent at distance
strictly between 0 and `min_dist`. -/
noncomputable def repelFlag (t : Thronglet) (min_dist : ℝ) (o : Thronglet) : Bool :=
  decide (¬ o.id = t.id ∧ neighborDist t o < min_dist ∧ neighborDist t o > 0)

/-- Sum of the x components of the unit repulsion vectors of the triggering
neighbors. -/
noncomputable def repelSumX (t : Thronglet) (min_dist : ℝ) (l : List Thronglet) : ℝ :=
  (l.map fun o => if repelFlag t min_dist o then (t.x - o.x) / neighborDist t o else 0).sum

/-- Sum of the y components of the unit repulsion vectors of the triggering
neighbors. -/
noncomputable def repelSumY (t : Thronglet) (min_dist : ℝ) (l : List Thronglet) : ℝ :=
  (l.map fun o => if repelFlag t min_dist o then (t.y - o.y) / neighborDist t o else 0).sum

/-- Number of triggering neighbors. -/
noncomputable def repelCount (t : Thronglet) (min_dist : ℝ) (l : List Thronglet) : ℕ :=
  l.countP (repelFlag t min_dist)

/-- The separation fold computes exactly the triggering-neighbor sums and
count. -/
theorem repelAccum_eq (t : Thronglet) (min_dist : ℝ) (l : List Thronglet) :
    repelAccum t min_dist l =
      (repelSumX t min_dist l, repelSumY t min_dist l, repelCount t min_dist l) := by
  suffices h : ∀ (l : List Thronglet) (a b : ℝ) (k : ℕ),
      List.foldl
        (fun acc other =>
          if other.id = t.id then acc
          else
            let dx := t.x - other.x
            let dy := t.y - other.y
            let dist := Real.sqrt (dx ^ 2 + dy ^ 2)
            if dist < min_dist ∧ dist > 0 then
              (acc.1 + dx / dist, acc.2.1 + dy / dist, acc.2.2 + 1)
            else acc)
        (a, b, k) l =
        (a + repelSumX t min_dist l, b + repelSumY t min_dist l, k + repelCount t min_dist l) by
    unfold repelAccum
    simpa using h l 0 0 0
  intro l
  induction l with
  | nil =>
    intro a b k
    simp [repelSumX, repelSumY, repelCount]
  | cons o rest ih =>
    intro a b k
    simp only [List.foldl_cons]
    by_cases h1 : o.id = t.id
    · rw [if_pos h1, ih]
      have hflag : repelFlag t min_dist o = false := by
        simp [repelFlag, h1]
      simp [repelSumX, repelSumY, repelCount, List.countP_cons, hflag]
    · rw [if_neg h1]
      by_cases h2 : Real.sqrt ((t.x - o.x) ^ 2 + (t.y - o.y) ^ 2) < min_dist ∧
          Real.sqrt ((t.x - o.x) ^ 2 + (t.y - o.y) ^ 2) > 0
      · simp only [if_pos h2, ih]
        have hflag : repelFlag t min_dist o = true := by
          simp [repelFlag, neighborDist, h1, h2.1, h2.2]
        simp only [repelSumX, repelSumY, repelCount, List.map_cons, List.sum_cons,
          List.countP_cons, hflag, if_pos, Prod.mk.injEq, neighborDist]
        refine ⟨by ring, by ring, by omega⟩
      · simp only [if_neg h2, ih]
        have hflag : repelFlag t min_dist o = false := by
          simp only [repelFlag, neighborDist, decide_eq_false_iff_not]
          rintro ⟨-, hlt, hgt⟩
          exact h2 ⟨hlt, hgt⟩
        simp [repelSumX, repelSumY, repelCount, List.countP_cons, hflag]

/-- C7: move_away_from_others accumulates, over every other agent at distance
strictly between 0 and min_dist, the unit repulsion vector away from that
neighbor; if at least one neighbor triggered, it applies the summed vector
scaled by speed, and it is a no-op when no neighbor is in range — in
particular two agents at exactly the same position never repel each other. -/
theorem move_away_from_others_spec (cfg : Config) (t : Thronglet)
    (roster : List Thronglet) (min_dist speed : ℝ) :
    repelAccum t min_dist roster =
      (repelSumX t min_dist roster, repelSumY t min_dist roster,
       repelCount t min_dist roster) ∧
    (0 < repelCount t min_dist roster →
      t.move_away_from_others cfg roster min_dist speed =
        t._apply_movement cfg (repelSumX t min_dist roster * speed)
          (repelSumY t min_dist roster * speed)) ∧
    (repelCount t min_dist roster = 0 →
      t.move_away_from_others cfg roster min_dist speed = t) ∧
    (∀ a b : Thronglet, a.x = b.x → a.y = b.y →
      a.move_away_from_others cfg [a, b] min_dist speed = a) := by
  refine ⟨repelAccum_eq t min_dist roster, ?_, ?_, ?_⟩
  · intro hpos
    unfold Thronglet.move_away_from_others
    rw [repelAccum_eq]
    simp [hpos]
  · intro hzero
    unfold Thronglet.move_away_from_others
    rw [repelAccum_eq]
    simp [hzero]
  · intro a b hx hy
    unfold Thronglet.move_away_from_others
    rw [repelAccum_eq]
    have hb : repelFlag a min_dist b = false := by
      by_cases hid : b.id = a.id
      · simp [repelFlag, hid]
      · have : neighborDist a b = 0 := by
          simp [neighborDist, hx, hy]
        simp [repelFlag, this]
    have ha : repelFlag a min_dist a = false := by
      simp [repelFlag]
    simp [repelCount, List.countP_cons, ha, hb]

/-- Witness for move_away_from_others_spec: an empty roster is a no-op, and
two exactly-overlapping agents do not repel. -/
theorem move_away_from_others_spec_witness :
    Thronglet.move_away_from_others referenceConfig ⟨0, 0, 50, 0, 1⟩ [] 5 1 =
      (⟨0, 0, 50, 0, 1⟩ : Thronglet) ∧
    Thronglet.move_away_from_others referenceConfig ⟨0, 0, 50, 0, 1⟩
      [⟨0, 0, 50, 0, 1⟩, ⟨0, 0, 50, 0, 2⟩] 5 1 = (⟨0, 0, 50, 0, 1⟩ : Thronglet) :=
  ⟨(move_away_from_others_spec referenceConfig ⟨0, 0, 50, 0, 1⟩ [] 5 1).2.2.1
     (by simp [repelCount]),
   (move_away_from_others_spec referenceConfig ⟨0, 0, 50, 0, 1⟩
      [⟨0, 0, 50, 0, 1⟩, ⟨0, 0, 50, 0, 2⟩] 5 1).2.2.2 ⟨0, 0, 50, 0, 1⟩ ⟨0, 0, 50, 0, 2⟩
     rfl rfl⟩

/-- The world returned by update is exactly the post-forage world. -/
theorem update_world_eq (cfg : Config) (t : Thronglet) (now : ℕ) (w : World)
    (roster : List Thronglet) (d : Draws) (counter : ℕ) :
    (t.update cfg now w roster d counter).2.1 = (preDecisionState cfg t w roster).2 := by
  rw [update_eq_branches]
  split_ifs <;> rfl

/-- Foraging either leaves the food set alone or erases exactly the item at
the agent's truncated position. -/
theorem forage_food_cases (cfg : Config) (t : Thronglet) (w : World) :
    (t.forage cfg w).2.food = w.food ∨
      ((pyInt t.x, pyInt t.y) ∈ w.food ∧
        (t.forage cfg w).2.food = w.food.erase (pyInt t.x, pyInt t.y)) := by
  unfold Thronglet.forage World.consume_food_at
  by_cases hm : (pyInt t.x, pyInt t.y) ∈ w.food
  · right
    exact ⟨hm, by simp [hm]⟩
  · left
    simp [hm]

/-- C10: a call to update leaves every other agent in the roster unchanged
(the in-place pass only rewrites the slot of the agent being updated), and
never adds food: the food set after the call is contained in the food set
before it, shrinks by at most one item, and the only item it can lose is the
one at the rounded-down position the agent forages from after separation. -/
theorem update_frame (cfg : Config) (t : Thronglet) (now : ℕ) (w : World)
    (roster : List Thronglet) (d : Draws) (counter : ℕ) :
    (∀ q, q ∈ (t.update cfg now w roster d counter).2.1.food → q ∈ w.food) ∧
    w.food.length ≤ (t.update cfg now w roster d counter).2.1.food.length + 1 ∧
    ((t.update cfg now w roster d counter).2.1.food = w.food ∨
      (t.update cfg now w roster d counter).2.1.food =
        w.food.erase (pyInt (t.move_away_from_others cfg roster 5 1).x,
          pyInt (t.move_away_from_others cfg roster 5 1).y)) ∧
    (∀ q, q ∈ w.food → q ∉ (t.update cfg now w roster d counter).2.1.food →
      q = (pyInt (t.move_away_from_others cfg roster 5 1).x,
           pyInt (t.move_away_from_others cfg roster 5 1).y)) ∧
    (∀ (s : SimState) (i : ℕ) (d' : Draws) (j : ℕ), j ≠ i →
      (updateAt cfg now s i d').agents[j]? = s.agents[j]?) := by
  have hw : (t.update cfg now w roster d counter).2.1.food =
      ((t.move_away_from_others cfg roster 5 1).forage cfg w).2.food := by
    rw [update_world_eq]
    rfl
  have hcases := forage_food_cases cfg (t.move_away_from_others cfg roster 5 1) w
  refine ⟨?_, ?_, ?_, ?_, ?_⟩
  · intro q hq
    rw [hw] at hq
    rcases hcases with h | ⟨-, h⟩
    · rwa [h] at hq
    · rw [h] at hq
      exact List.mem_of_mem_erase hq
  · rw [hw]
    rcases hcases with h | ⟨hm, h⟩
    · rw [h]
      omega
    · rw [h, List.length_erase_of_mem hm]
      have := List.length_pos_of_mem hm
      omega
  · rw [hw]
    rcases hcases with h | ⟨-, h⟩
    · exact Or.inl h
    · exact Or.inr h
  · intro q hqw hqn
    rw [hw] at hqn
    rcases hcases with h | ⟨-, h⟩
    · exact absurd (h ▸ hqw) hqn
    · by_contra hne
      exact hqn (h ▸ (List.mem_erase_of_ne hne).mpr hqw)
  · intro s i d' j hj
    unfold updateAt
    rcases hg : s.agents[i]? with - | t'
    · rfl
    · simpa using List.getElem?_set_ne (Ne.symm hj)

/-- Witness for update_frame: an update over a singleton food set, and the
slot-frame fact at concrete indices. -/
theorem update_frame_witness :
    (∀ q, q ∈ (Thronglet.update referenceConfig ⟨0, 0, 50, 100, 1⟩ 0 ⟨[(9, 9)]⟩ []
        ⟨1, 1, 7, 0, 9⟩ 1).2.1.food → q ∈ [((9 : ℤ), (9 : ℤ))]) ∧
    (updateAt referenceConfig 0 ⟨⟨[]⟩, [⟨0, 0, 50, 100, 1⟩], [], 1⟩ 0
        ⟨1, 1, 7, 0, 9⟩).agents[3]? =
      (⟨⟨[]⟩, [⟨0, 0, 50, 100, 1⟩], [], 1⟩ : SimState).agents[3]? :=
  ⟨(update_frame referenceConfig ⟨0, 0, 50, 100, 1⟩ 0 ⟨[(9, 9)]⟩ [] ⟨1, 1, 7, 0, 9⟩ 1).1,
   (update_frame referenceConfig ⟨0, 0, 50, 100, 1⟩ 0 ⟨[(9, 9)]⟩ [] ⟨1, 1, 7, 0, 9⟩ 1).2.2.2.2
     ⟨⟨[]⟩, [⟨0, 0, 50, 100, 1⟩], [], 1⟩ 0 ⟨1, 1, 7, 0, 9⟩ 3 (by decide)⟩

/-- Movement clamping never touches energy, id, or the replication timer. -/
theorem _apply_movement_fields (cfg : Config) (t : Thronglet) (dx dy : ℝ) :
    (t._apply_movement cfg dx dy).energy = t.energy ∧
    (t._apply_movement cfg dx dy).id = t.id ∧
    (t._apply_movement cfg dx dy).next_replicate = t.next_replicate :=
  ⟨rfl, rfl, rfl⟩

/-- move_random never touches energy, id, or the replication timer. -/
theorem move_random_fields (cfg : Config) (t : Thronglet) (dx dy : ℤ) :
    (t.move_random cfg dx dy).energy = t.energy ∧
    (t.move_random cfg dx dy).id = t.id ∧
    (t.move_random cfg dx dy).next_replicate = t.next_replicate :=
  ⟨rfl, rfl, rfl⟩

/-- Separation never touches energy, id, or the replication timer. -/
theorem move_away_from_others_fields (cfg : Config) (t : Thronglet)
    (l : List Thronglet) (md sp : ℝ) :
    (t.move_away_from_others cfg l md sp).energy = t.energy ∧
    (t.move_away_from_others cfg l md sp).id = t.id ∧
    (t.move_away_from_others cfg l md sp).next_replicate = t.next_replicate := by
  unfold Thronglet.move_away_from_others
  dsimp only
  split_ifs <;> exact ⟨rfl, rfl, rfl⟩

/-- Food seeking never touches energy, id, or the replication timer. -/
theorem seek_food_fields (cfg : Config) (t : Thronglet) (w : World) (rdx rdy : ℤ) :
    (t.seek_food cfg w rdx rdy).energy = t.energy ∧
    (t.seek_food cfg w rdx rdy).id = t.id ∧
    (t.seek_food cfg w rdx rdy).next_replicate = t.next_replicate := by
  unfold Thronglet.seek_food
  rcases w.get_nearest_food (pyInt t.x) (pyInt t.y) with - | ⟨tx, ty⟩
  · exact ⟨rfl, rfl, rfl⟩
  · dsimp only
    split_ifs <;> exact ⟨rfl, rfl, rfl⟩

/-- Foraging never moves the agent and never touches id or the timer. -/
theorem forage_fields (cfg : Config) (t : Thronglet) (w : World) :
    (t.forage cfg w).1.x = t.x ∧ (t.forage cfg w).1.y = t.y ∧
    (t.forage cfg w).1.id = t.id ∧ (t.forage cfg w).1.next_replicate = t.next_replicate := by
  unfold Thronglet.forage
  dsimp only
  split_ifs <;> exact ⟨rfl, rfl, rfl, rfl⟩

/-- The energy of the post-forage agent: either untouched or the clamped gain. -/
theorem forage_energy_cases (cfg : Config) (t : Thronglet) (w : World) :
    (t.forage cfg w).1.energy = t.energy ∨
      (t.forage cfg w).1.energy = min cfg.ENERGY_MAX (t.energy + cfg.ENERGY_GAIN_PER_FOOD) := by
  unfold Thronglet.forage
  dsimp only
  split_ifs
  · exact Or.inr rfl
  · exact Or.inl rfl

/-- A per-agent predicate lifted to the whole simulation state (live agents
and the newborns collected so far this tick). -/
def AgentInv (P : Thronglet → Prop) (s : SimState) : Prop :=
  (∀ a ∈ s.agents, P a) ∧ (∀ a ∈ s.babies, P a)

/-- If a single update preserves `P` of the updated agent and establishes it
of any newborn, then the in-place pass step preserves the lifted invariant. -/
theorem updateAt_preserves (cfg : Config) (now : ℕ) (P : Thronglet → Prop)
    (hupd : ∀ (t : Thronglet) (w : World) (roster : List Thronglet) (d : Draws)
      (counter : ℕ), P t →
      P (t.update cfg now w roster d counter).1 ∧
      ∀ b, (t.update cfg now w roster d counter).2.2.1 = some b → P b)
    (s : SimState) (i : ℕ) (d : Draws) (hs : AgentInv P s) :
    AgentInv P (updateAt cfg now s i d) := by
  unfold updateAt
  rcases hg : s.agents[i]? with - | t
  · exact hs
  · have ht : P t := hs.1 t (List.getElem?_mem hg)
    have h := hupd t s.world s.agents d s.counter ht
    constructor
    · intro a ha
      rcases List.mem_or_eq_of_mem_set ha with ha' | rfl
      · exact hs.1 a ha'
      · exact h.1
    · intro a ha
      rcases List.mem_append.mp ha with ha' | ha'
      · exact hs.2 a ha'
      · exact h.2 a (by simpa using ha')

/-- The lifted invariant survives the whole per-tick pass, the newborn
append, and any multi-tick run. -/
theorem tick_runSim_preserve (cfg : Config) (P : Thronglet → Prop)
    (hupd : ∀ (now : ℕ) (t : Thronglet) (w : World) (roster : List Thronglet)
      (d : Draws) (counter : ℕ), P t →
      P (t.update cfg now w roster d counter).1 ∧
      ∀ b, (t.update cfg now w roster d counter).2.2.1 = some b → P b) :
    (∀ (now : ℕ) (draws : ℕ → Draws) (s : SimState) (k : ℕ), AgentInv P s →
      AgentInv P (tickPrefix cfg now draws s k)) ∧
    (∀ (now : ℕ) (draws : ℕ → Draws) (s : SimState), AgentInv P s →
      AgentInv P (tick cfg now draws s)) ∧
    (∀ (sched : List (ℕ × (ℕ → Draws))) (s : SimState), AgentInv P s →
      AgentInv P (runSim cfg sched s)) := by
  have hpre : ∀ (now : ℕ) (draws : ℕ → Draws) (s : SimState) (k : ℕ), AgentInv P s →
      AgentInv P (tickPrefix cfg now draws s k) := by
    intro now draws s k
    unfold tickPrefix
    generalize List.range k = l
    induction l generalizing s with
    | nil => exact fun hs => hs
    | cons i rest ih =>
      intro hs
      exact ih _ (updateAt_preserves cfg now P (hupd now) s i (draws i) hs)
  have htick : ∀ (now : ℕ) (draws : ℕ → Draws) (s : SimState), AgentInv P s →
      AgentInv P (tick cfg now draws s) := by
    intro now draws s hs
    have h1 := hpre now draws s s.agents.length hs
    unfold tick
    constructor
    · intro a ha
      rcases List.mem_append.mp ha with ha' | ha'
      · exact h1.1 a ha'
      · exact h1.2 a ha'
    · intro a ha
      simp at ha
  refine ⟨hpre, htick, ?_⟩
  intro sched
  induction sched with
  | nil => exact fun s hs => hs
  | cons td rest ih =>
    intro s hs
    exact ih _ (htick td.1 td.2 s hs)

/-- The per-agent energy invariant I1. -/
def EnergyOK (cfg : Config) (a : Thronglet) : Prop :=
  0 ≤ a.energy ∧ a.energy ≤ cfg.ENERGY_MAX

/-- A single update keeps the updated agent's energy in `[0, ENERGY_MAX]` and
gives any newborn energy in that range, provided the food gain is nonnegative
and the replication cost lies in `[0, ENERGY_MAX]`. -/
theorem update_energy (cfg : Config) (hg : 0 ≤ cfg.ENERGY_GAIN_PER_FOOD)
    (hc0 : 0 ≤ cfg.REPLICATION_ENERGY_COST)
    (hc1 : cfg.REPLICATION_ENERGY_COST ≤ cfg.ENERGY_MAX)
    (now : ℕ) (t : Thronglet) (w : World) (roster : List Thronglet) (d : Draws)
    (counter : ℕ) (ht : EnergyOK cfg t) :
    EnergyOK cfg (t.update cfg now w roster d counter).1 ∧
    ∀ b, (t.update cfg now w roster d counter).2.2.1 = some b → EnergyOK cfg b := by
  have hEmax : (0 : ℤ) ≤ cfg.ENERGY_MAX := le_trans hc0 hc1
  have ht1 : EnergyOK cfg (t.move_away_from_others cfg roster 5 1) := by
    rw [EnergyOK, (move_away_from_others_fields cfg t roster 5 1).1]
    exact ht
  have ht2 : EnergyOK cfg (preDecisionState cfg t w roster).1 := by
    rcases forage_energy_cases cfg (t.move_away_from_others cfg roster 5 1) w with h | h
    · rw [EnergyOK, preDecisionState, h]
      exact ht1
    · rw [EnergyOK, preDecisionState, h]
      constructor
      · exact le_min hEmax (add_nonneg ht1.1 hg)
      · exact min_le_left _ _
  rw [update_eq_branches]
  split_ifs with h1 h2
  · refine ⟨?_, by intro b hb; simp at hb⟩
    rw [EnergyOK,
      (seek_food_fields cfg (preDecisionState cfg t w roster).1
        (preDecisionState cfg t w roster).2 d.dx d.dy).1]
    exact ht2
  · have hge : cfg.ENERGY_MAX ≤ (preDecisionState cfg t w roster).1.energy := by
      unfold Thronglet.can_replicate at h2
      rw [Bool.and_eq_true, decide_eq_true_iff, decide_eq_true_iff] at h2
      exact h2.2
    constructor
    · constructor
      · show (0 : ℤ) ≤ (preDecisionState cfg t w roster).1.energy -
          cfg.REPLICATION_ENERGY_COST
        omega
      · show (preDecisionState cfg t w roster).1.energy -
          cfg.REPLICATION_ENERGY_COST ≤ cfg.ENERGY_MAX
        have := ht2.2
        omega
    · intro b hb
      have hbeq : b = ((preDecisionState cfg t w roster).1.replicate cfg now
          d.parentInterval d.ctorNow d.childInterval counter).2.1 := by
        simpa using hb.symm
      rw [hbeq]
      exact ⟨hEmax, le_refl _⟩
  · refine ⟨?_, by intro b hb; simp at hb⟩
    rw [EnergyOK,
      (move_random_fields cfg (preDecisionState cfg t w roster).1 d.dx d.dy).1]
    exact ht2

/-- C3: for every agent at every tick of a simulation driven through update
(with a configuration, like the reference one, where the food gain is
nonnegative and `0 ≤ REPLICATION_ENERGY_COST ≤ ENERGY_MAX` and the drop cost
is nonnegative), energy stays in `[0, ENERGY_MAX]`: the tick pass and any
multi-tick run preserve the invariant, creation sets energy to ENERGY_MAX,
forage clamps the gain at ENERGY_MAX, and drop_food deducts only when energy
covers the cost. -/
theorem energy_invariant (cfg : Config) (hg : 0 ≤ cfg.ENERGY_GAIN_PER_FOOD)
    (hc0 : 0 ≤ cfg.REPLICATION_ENERGY_COST)
    (hc1 : cfg.REPLICATION_ENERGY_COST ≤ cfg.ENERGY_MAX)
    (hd : 0 ≤ cfg.DROP_FOOD_ENERGY_COST)
    (now : ℕ) (draws : ℕ → Draws) (sched : List (ℕ × (ℕ → Draws))) (s : SimState)
    (x y : ℝ) (now0 interval counter : ℕ) (t : Thronglet) (w : World) :
    (AgentInv (EnergyOK cfg) s → AgentInv (EnergyOK cfg) (tick cfg now draws s)) ∧
    (AgentInv (EnergyOK cfg) s → AgentInv (EnergyOK cfg) (runSim cfg sched s)) ∧
    (Thronglet.init x y cfg now0 interval counter).1.energy = cfg.ENERGY_MAX ∧
    (EnergyOK cfg t → EnergyOK cfg (t.forage cfg w).1) ∧
    ((t.forage cfg w).1.energy ≤ max t.energy cfg.ENERGY_MAX) ∧
    (EnergyOK cfg t → EnergyOK cfg (t.drop_food cfg w).1) := by
  have hEmax : (0 : ℤ) ≤ cfg.ENERGY_MAX := le_trans hc0 hc1
  have hmain := tick_runSim_preserve cfg (EnergyOK cfg)
    (fun now' t' w' roster' d' counter' ht' =>
      update_energy cfg hg hc0 hc1 now' t' w' roster' d' counter' ht')
  refine ⟨hmain.2.1 now draws s, hmain.2.2 sched s, rfl, ?_, ?_, ?_⟩
  · intro ht
    rcases forage_energy_cases cfg t w with h | h
    · rw [EnergyOK, h]
      exact ht
    · rw [EnergyOK, h]
      exact ⟨le_min hEmax (add_nonneg ht.1 hg), min_le_left _ _⟩
  · rcases forage_energy_cases cfg t w with h | h
    · rw [h]
      exact le_max_left _ _
    · rw [h]
      exact le_trans (min_le_left _ _) (le_max_right _ _)
  · intro ht
    obtain ⟨ht0, htm⟩ := ht
    unfold Thronglet.drop_food
    dsimp only
    split_ifs with h
    · exact ⟨by dsimp only; omega, by dsimp only; omega⟩
    · exact ⟨ht0, htm⟩

/-- Witness for energy_invariant at the reference configuration and a
concrete one-agent state. -/
theorem energy_invariant_witness :
    AgentInv (EnergyOK referenceConfig)
      (runSim referenceConfig [(0, fun _ => ⟨1, 1, 7, 0, 9⟩)]
        ⟨⟨[]⟩, [⟨0, 0, 50, 0, 1⟩], [], 1⟩) ∧
    EnergyOK referenceConfig
      (Thronglet.drop_food referenceConfig ⟨0, 0, 30, 0, 1⟩ ⟨[]⟩).1 := by
  have h := energy_invariant referenceConfig (by decide) (by decide) (by decide) (by decide)
    0 (fun _ => ⟨1, 1, 7, 0, 9⟩) [(0, fun _ => ⟨1, 1, 7, 0, 9⟩)]
    ⟨⟨[]⟩, [⟨0, 0, 50, 0, 1⟩], [], 1⟩ 0 0 0 9 1 ⟨0, 0, 30, 0, 1⟩ ⟨[]⟩
  refine ⟨h.2.1 ?_, h.2.2.2.2.2 (by constructor <;> decide)⟩
  constructor
  · intro a ha
    rcases List.mem_singleton.mp ha with rfl
    exact ⟨by decide, by decide⟩
  · intro a ha
    simp at ha

/-- The per-agent bounds invariant I2. -/
def BoundsOK (cfg : Config) (a : Thronglet) : Prop :=
  0 ≤ a.x ∧ a.x ≤ cfg.WORLD_WIDTH ∧ 0 ≤ a.y ∧ a.y ≤ cfg.WORLD_HEIGHT

/-- The movement clamp lands inside the world for any displacement whatsoever,
as long as the world rectangle is nonempty. -/
theorem _apply_movement_bounds (cfg : Config) (hW : 0 ≤ cfg.WORLD_WIDTH)
    (hH : 0 ≤ cfg.WORLD_HEIGHT) (t : Thronglet) (dx dy : ℝ) :
    BoundsOK cfg (t._apply_movement cfg dx dy) :=
  ⟨le_max_left _ _, max_le hW (min_le_left _ _),
   le_max_left _ _, max_le hH (min_le_left _ _)⟩

/-- Separation keeps an in-bounds agent in bounds. -/
theorem move_away_from_others_bounds (cfg : Config) (hW : 0 ≤ cfg.WORLD_WIDTH)
    (hH : 0 ≤ cfg.WORLD_HEIGHT) (t : Thronglet) (l : List Thronglet) (md sp : ℝ)
    (ht : BoundsOK cfg t) : BoundsOK cfg (t.move_away_from_others cfg l md sp) := by
  unfold Thronglet.move_away_from_others
  dsimp only
  split_ifs
  · exact _apply_movement_bounds cfg hW hH t _ _
  · exact ht

/-- Food seeking keeps an in-bounds agent in bounds. -/
theorem seek_food_bounds (cfg : Config) (hW : 0 ≤ cfg.WORLD_WIDTH)
    (hH : 0 ≤ cfg.WORLD_HEIGHT) (t : Thronglet) (w : World) (rdx rdy : ℤ)
    (ht : BoundsOK cfg t) : BoundsOK cfg (t.seek_food cfg w rdx rdy) := by
  unfold Thronglet.seek_food
  rcases w.get_nearest_food (pyInt t.x) (pyInt t.y) with - | ⟨tx, ty⟩
  · exact _apply_movement_bounds cfg hW hH t _ _
  · dsimp only
    split_ifs
    · exact ht
    · exact _apply_movement_bounds cfg hW hH t _ _

/-- A single update keeps the updated agent in bounds and spawns any newborn
in bounds, given a nonempty world rectangle. -/
theorem update_bounds (cfg : Config) (hW : 0 ≤ cfg.WORLD_WIDTH)
    (hH : 0 ≤ cfg.WORLD_HEIGHT) (now : ℕ) (t : Thronglet) (w : World)
    (roster : List Thronglet) (d : Draws) (counter : ℕ) (ht : BoundsOK cfg t) :
    BoundsOK cfg (t.update cfg now w roster d counter).1 ∧
    ∀ b, (t.update cfg now w roster d counter).2.2.1 = some b → BoundsOK cfg b := by
  have ht1 : BoundsOK cfg (t.move_away_from_others cfg roster 5 1) :=
    move_away_from_others_bounds cfg hW hH t roster 5 1 ht
  have ht2 : BoundsOK cfg (preDecisionState cfg t w roster).1 := by
    have hf := forage_fields cfg (t.move_away_from_others cfg roster 5 1) w
    rw [BoundsOK, preDecisionState, hf.1, hf.2.1]
    exact ht1
  rw [update_eq_branches]
  split_ifs with h1 h2
  · exact ⟨seek_food_bounds cfg hW hH _ _ _ _ ht2, by intro b hb; simp at hb⟩
  · constructor
    · exact ht2
    · intro b hb
      have hbeq : b = ((preDecisionState cfg t w roster).1.replicate cfg now
          d.parentInterval d.ctorNow d.childInterval counter).2.1 := by
        simpa using hb.symm
      rw [hbeq]
      exact ht2
  · exact ⟨_apply_movement_bounds cfg hW hH _ _ _, by intro b hb; simp at hb⟩

/-- C4: for every agent at every tick, the position lies within
`[0, WORLD_WIDTH] × [0, WORLD_HEIGHT]`: the clamp lands any movement in
bounds, the tick pass and any multi-tick run preserve the invariant, initial
agents placed inside the rectangle are in bounds, and a child spawns exactly
at its parent's position. -/
theorem bounds_invariant (cfg : Config) (hW : 0 ≤ cfg.WORLD_WIDTH)
    (hH : 0 ≤ cfg.WORLD_HEIGHT) (now : ℕ) (draws : ℕ → Draws)
    (sched : List (ℕ × (ℕ → Draws))) (s : SimState) (x y : ℝ)
    (now0 interval counter : ℕ) (t : Thronglet) (dx dy : ℝ)
    (pI cN cI c : ℕ) :
    (AgentInv (BoundsOK cfg) s → AgentInv (BoundsOK cfg) (tick cfg now draws s)) ∧
    (AgentInv (BoundsOK cfg) s → AgentInv (BoundsOK cfg) (runSim cfg sched s)) ∧
    BoundsOK cfg (t._apply_movement cfg dx dy) ∧
    (0 ≤ x → x ≤ cfg.WORLD_WIDTH → 0 ≤ y → y ≤ cfg.WORLD_HEIGHT →
      BoundsOK cfg (Thronglet.init x y cfg now0 interval counter).1) ∧
    ((t.replicate cfg now pI cN cI c).2.1.x = t.x ∧
      (t.replicate cfg now pI cN cI c).2.1.y = t.y) := by
  have hmain := tick_runSim_preserve cfg (BoundsOK cfg)
    (fun now' t' w' roster' d' counter' ht' =>
      update_bounds cfg hW hH now' t' w' roster' d' counter' ht')
  refine ⟨hmain.2.1 now draws s, hmain.2.2 sched s, ?_, ?_, rfl, rfl⟩
  · exact _apply_movement_bounds cfg hW hH t dx dy
  · intro h1 h2 h3 h4
    exact ⟨h1, h2, h3, h4⟩

/-- Witness for bounds_invariant at the reference configuration and a
concrete one-agent state. -/
theorem bounds_invariant_witness :
    AgentInv (BoundsOK referenceConfig)
      (runSim referenceConfig [(0, fun _ => ⟨1, 1, 7, 0, 9⟩)]
        ⟨⟨[]⟩, [⟨0, 0, 50, 0, 1⟩], [], 1⟩) ∧
    BoundsOK referenceConfig (Thronglet.init 5 6 referenceConfig 0 9 1).1 := by
  have hW : (0 : ℝ) ≤ referenceConfig.WORLD_WIDTH := by
    show (0 : ℝ) ≤ 800
    norm_num
  have hH : (0 : ℝ) ≤ referenceConfig.WORLD_HEIGHT := by
    show (0 : ℝ) ≤ 600
    norm_num
  have h := bounds_invariant referenceConfig hW hH 0 (fun _ => ⟨1, 1, 7, 0, 9⟩)
    [(0, fun _ => ⟨1, 1, 7, 0, 9⟩)] ⟨⟨[]⟩, [⟨0, 0, 50, 0, 1⟩], [], 1⟩ 5 6 0 9 1
    ⟨0, 0, 50, 0, 1⟩ 0 0 7 0 9 1
  refine ⟨h.2.1 ?_, h.2.2.2.1 (by norm_num) (by show (5:ℝ) ≤ 800; norm_num)
    (by norm_num) (by show (6:ℝ) ≤ 600; norm_num)⟩
  constructor
  · intro a ha
    rcases List.mem_singleton.mp ha with rfl
    exact ⟨le_refl _, by show (0:ℝ) ≤ 800; norm_num, le_refl _,
      by show (0:ℝ) ≤ 600; norm_num⟩
  · intro a ha
    simp at ha

/-- Setting a list slot to the value it already holds changes nothing. -/
theorem list_set_same {α : Type} (l : List α) (i : ℕ) (a : α) (h : l[i]? = some a) :
    l.set i a = l := by
  induction l generalizing i with
  | nil => simp at h
  | cons x xs ih =>
    cases i with
    | zero =>
      simp at h
      simp [h]
    | succ j =>
      simp at h ⊢
      exact ih j h

/-- update never changes the id of the agent being updated. -/
theorem update_id (cfg : Config) (now : ℕ) (t : Thronglet) (w : World)
    (roster : List Thronglet) (d : Draws) (counter : ℕ) :
    (t.update cfg now w roster d counter).1.id = t.id := by
  have h2 : (preDecisionState cfg t w roster).1.id = t.id := by
    rw [preDecisionState,
      (forage_fields cfg (t.move_away_from_others cfg roster 5 1) w).2.2.1,
      (move_away_from_others_fields cfg t roster 5 1).2.1]
  rw [update_eq_branches]
  split_ifs
  · rw [(seek_food_fields cfg (preDecisionState cfg t w roster).1
      (preDecisionState cfg t w roster).2 d.dx d.dy).2.1, h2]
  · exact h2
  · rw [(move_random_fields cfg (preDecisionState cfg t w roster).1 d.dx d.dy).2.1, h2]

/-- The class counter never decreases across an update, and a newborn carries
id `counter + 1`. -/
theorem update_counter (cfg : Config) (now : ℕ) (t : Thronglet) (w : World)
    (roster : List Thronglet) (d : Draws) (counter : ℕ) :
    counter ≤ (t.update cfg now w roster d counter).2.2.2 ∧
    ∀ b, (t.update cfg now w roster d counter).2.2.1 = some b → b.id = counter + 1 := by
  rw [update_eq_branches]
  split_ifs
  · exact ⟨le_refl _, by intro b hb; simp at hb⟩
  · refine ⟨Nat.le_succ _, ?_⟩
    intro b hb
    have hbeq : b = ((preDecisionState cfg t w roster).1.replicate cfg now
        d.parentInterval d.ctorNow d.childInterval counter).2.1 := by
      simpa using hb.symm
    rw [hbeq]
    rfl
  · exact ⟨le_refl _, by intro b hb; simp at hb⟩

/-- The pass invariant behind spawn isolation: the live roster keeps exactly
the original ids, the counter only grows, and every newborn's id exceeds the
starting counter. -/
def PassInv (s0 s : SimState) : Prop :=
  s.agents.map Thronglet.id = s0.agents.map Thronglet.id ∧
  s0.counter ≤ s.counter ∧
  ∀ b ∈ s.babies, s0.counter < b.id

/-- One in-place update step preserves the pass invariant. -/
theorem updateAt_passInv (cfg : Config) (now : ℕ) (s0 s : SimState) (i : ℕ) (d : Draws)
    (hs : PassInv s0 s) : PassInv s0 (updateAt cfg now s i d) := by
  unfold updateAt
  rcases hg : s.agents[i]? with - | t
  · exact hs
  · obtain ⟨hids, hcnt, hbab⟩ := hs
    refine ⟨?_, ?_, ?_⟩
    · rw [List.map_set, update_id]
      have : (s.agents.map Thronglet.id)[i]? = some t.id := by
        rw [List.getElem?_map, hg]
        rfl
      rw [list_set_same _ i t.id this, hids]
    · exact le_trans hcnt
        (update_counter cfg now t s.world s.agents d s.counter).1
    · intro b hb
      rcases List.mem_append.mp hb with hb' | hb'
      · exact hbab b hb'
      · have hbeq := (update_counter cfg now t s.world s.agents d s.counter).2 b
          (by simpa using hb')
        omega

/-- The pass invariant holds after any number of in-place steps. -/
theorem tickPrefix_passInv (cfg : Config) (now : ℕ) (draws : ℕ → Draws) (s : SimState)
    (hb0 : s.babies = []) (k : ℕ) : PassInv s (tickPrefix cfg now draws s k) := by
  have hgen : ∀ (l : List ℕ) (s1 : SimState), PassInv s s1 →
      PassInv s (l.foldl (fun s2 i => updateAt cfg now s2 i (draws i)) s1) := by
    intro l
    induction l with
    | nil => exact fun s1 hs1 => hs1
    | cons i rest ih =>
      intro s1 hs1
      exact ih _ (updateAt_passInv cfg now s s1 i (draws i) hs1)
  exact hgen (List.range k) s ⟨rfl, le_refl _, by rw [hb0]; intro b hb; simp at hb⟩

/-- C5: a newborn produced during a tick is never visited by the update pass
of that tick and never observed in any roster passed to an agent's update
during it: at every step of the pass the roster carries exactly the original
ids, every newborn's id strictly exceeds the starting counter (which
dominates all live ids), so no newborn belongs to any pass roster, and the
tick appends the newborns to the population only after the full pass. -/
theorem spawn_isolation (cfg : Config) (now : ℕ) (draws : ℕ → Draws) (s : SimState)
    (hids : ∀ a ∈ s.agents, a.id ≤ s.counter) (hb0 : s.babies = []) :
    (∀ k, (tickPrefix cfg now draws s k).agents.map Thronglet.id =
      s.agents.map Thronglet.id) ∧
    (∀ k, ∀ b ∈ (tickPrefix cfg now draws s k).babies, s.counter < b.id) ∧
    (∀ k j, ∀ b ∈ (tickPrefix cfg now draws s k).babies,
      b ∉ (tickPrefix cfg now draws s j).agents) ∧
    (tick cfg now draws s).agents =
      (tickPrefix cfg now draws s s.agents.length).agents ++
        (tickPrefix cfg now draws s s.agents.length).babies := by
  have hpi := fun k => tickPrefix_passInv cfg now draws s hb0 k
  refine ⟨fun k => (hpi k).1, fun k => (hpi k).2.2, ?_, rfl⟩
  intro k j b hbk hbj
  have hlt := (hpi k).2.2 b hbk
  have hmm : b.id ∈ (tickPrefix cfg now draws s j).agents.map Thronglet.id :=
    List.mem_map_of_mem Thronglet.id hbj
  rw [(hpi j).1] at hmm
  rcases List.mem_map.mp hmm with ⟨a, ha, haid⟩
  have := hids a ha
  omega

/-- Witness for spawn_isolation on a one-agent state whose id the counter
dominates. -/
theorem spawn_isolation_witness :
    (tickPrefix referenceConfig 0 (fun _ => ⟨1, 1, 7, 0, 9⟩)
        ⟨⟨[]⟩, [⟨0, 0, 50, 0, 1⟩], [], 1⟩ 1).agents.map Thronglet.id =
      ([⟨0, 0, 50, 0, 1⟩] : List Thronglet).map Thronglet.id ∧
    (tick referenceConfig 0 (fun _ => ⟨1, 1, 7, 0, 9⟩)
        ⟨⟨[]⟩, [⟨0, 0, 50, 0, 1⟩], [], 1⟩).agents =
      (tickPrefix referenceConfig 0 (fun _ => ⟨1, 1, 7, 0, 9⟩)
          ⟨⟨[]⟩, [⟨0, 0, 50, 0, 1⟩], [], 1⟩ 1).agents ++
        (tickPrefix referenceConfig 0 (fun _ => ⟨1, 1, 7, 0, 9⟩)
          ⟨⟨[]⟩, [⟨0, 0, 50, 0, 1⟩], [], 1⟩ 1).babies := by
  have h := spawn_isolation referenceConfig 0 (fun _ => ⟨1, 1, 7, 0, 9⟩)
    ⟨⟨[]⟩, [⟨0, 0, 50, 0, 1⟩], [], 1⟩
    (by intro a ha; rcases List.mem_singleton.mp ha with rfl; decide) rfl
  exact ⟨h.1 1, h.2.2.2⟩

/-- Euclidean distance from an agent to an (integer-coordinate) food item. -/
noncomputable def distTo (t : Thronglet) (p : ℤ × ℤ) : ℝ :=
  Real.sqrt (((p.1 : ℝ) - t.x) ^ 2 + ((p.2 : ℝ) - t.y) ^ 2)

/-- Clamping a convex combination of two in-range points is the identity. -/
theorem clamp_convex (W v tgt lam : ℝ) (h0 : 0 ≤ v) (h1 : v ≤ W) (h2 : 0 ≤ tgt)
    (h3 : tgt ≤ W) (hl0 : 0 ≤ lam) (hl1 : lam ≤ 1) :
    max 0 (min W (v + (tgt - v) * lam)) = v + (tgt - v) * lam := by
  have ha : 0 ≤ v + (tgt - v) * lam := by nlinarith
  have hb : v + (tgt - v) * lam ≤ W := by nlinarith
  rw [min_eq_right hb, max_eq_right ha]

/-- Scaling both legs of a right triangle by `c ≥ 0` scales the hypotenuse. -/
theorem sqrt_scale (a b c : ℝ) (hc : 0 ≤ c) :
    Real.sqrt ((a * c) ^ 2 + (b * c) ^ 2) = c * Real.sqrt (a ^ 2 + b ^ 2) := by
  have h : (a * c) ^ 2 + (b * c) ^ 2 = c ^ 2 * (a ^ 2 + b ^ 2) := by ring
  rw [h, Real.sqrt_mul (sq_nonneg c), Real.sqrt_sq hc]

/-- One seek step from a target returned by the nearest-food query: the new
distance is exactly the old distance minus `min(SEEK_SPEED, distance)`, and
standing exactly on the target moves nothing. -/
theorem seek_food_step (cfg : Config) (t : Thronglet) (w : World) (p : ℤ × ℤ)
    (rdx rdy : ℤ)
    (hnear : w.get_nearest_food (pyInt t.x) (pyInt t.y) = some p)
    (ht : BoundsOK cfg t)
    (hp1 : 0 ≤ ((p.1 : ℤ) : ℝ)) (hp2 : ((p.1 : ℤ) : ℝ) ≤ cfg.WORLD_WIDTH)
    (hp3 : 0 ≤ ((p.2 : ℤ) : ℝ)) (hp4 : ((p.2 : ℤ) : ℝ) ≤ cfg.WORLD_HEIGHT)
    (hs0 : 0 ≤ cfg.SEEK_SPEED) :
    distTo (t.seek_food cfg w rdx rdy) p =
      distTo t p - min cfg.SEEK_SPEED (distTo t p) ∧
    (distTo t p = 0 → t.seek_food cfg w rdx rdy = t) := by
  obtain ⟨tx, ty⟩ := p
  unfold Thronglet.seek_food
  rw [hnear]
  dsimp only at hp1 hp2 hp3 hp4 ⊢
  set dx : ℝ := (tx : ℝ) - t.x with hdx
  set dy : ℝ := (ty : ℝ) - t.y with hdy
  have hdist_eq : distTo t (tx, ty) = Real.sqrt (dx ^ 2 + dy ^ 2) := rfl
  by_cases hdist : Real.sqrt (dx ^ 2 + dy ^ 2) = 0
  · rw [if_pos hdist]
    constructor
    · rw [hdist_eq, hdist]
      have : min cfg.SEEK_SPEED (0 : ℝ) = 0 := min_eq_right hs0
      rw [this, sub_zero]
    · intro h
      rfl
  · rw [if_neg hdist]
    have hdpos : 0 < Real.sqrt (dx ^ 2 + dy ^ 2) :=
      lt_of_le_of_ne (Real.sqrt_nonneg _) (Ne.symm hdist)
    set dist : ℝ := Real.sqrt (dx ^ 2 + dy ^ 2) with hd
    set step : ℝ := min cfg.SEEK_SPEED dist with hstep
    have hstep0 : 0 ≤ step := le_min hs0 (le_of_lt hdpos)
    have hstep1 : step ≤ dist := min_le_right _ _
    have hl0 : 0 ≤ step / dist := div_nonneg hstep0 (le_of_lt hdpos)
    have hl1 : step / dist ≤ 1 := (div_le_one hdpos).mpr hstep1
    have hx : (t._apply_movement cfg (dx / dist * step) (dy / dist * step)).x =
        t.x + (((tx : ℝ)) - t.x) * (step / dist) := by
      show max 0 (min cfg.WORLD_WIDTH (t.x + dx / dist * step)) = _
      have e : t.x + dx / dist * step = t.x + (((tx : ℝ)) - t.x) * (step / dist) := by
        rw [hdx]
        ring
      rw [e]
      exact clamp_convex cfg.WORLD_WIDTH t.x (tx : ℝ) (step / dist) ht.1 ht.2.1 hp1 hp2
        hl0 hl1
    have hy : (t._apply_movement cfg (dx / dist * step) (dy / dist * step)).y =
        t.y + (((ty : ℝ)) - t.y) * (step / dist) := by
      show max 0 (min cfg.WORLD_HEIGHT (t.y + dy / dist * step)) = _
      have e : t.y + dy / dist * step = t.y + (((ty : ℝ)) - t.y) * (step / dist) := by
        rw [hdy]
        ring
      rw [e]
      exact clamp_convex cfg.WORLD_HEIGHT t.y (ty : ℝ) (step / dist) ht.2.2.1 ht.2.2.2
        hp3 hp4 hl0 hl1
    constructor
    · rw [distTo, hx, hy]
      have ex : (tx : ℝ) - (t.x + (((tx : ℝ)) - t.x) * (step / dist)) =
          dx * ((dist - step) / dist) := by
        rw [hdx]
        field_simp
        ring
      have ey : (ty : ℝ) - (t.y + (((ty : ℝ)) - t.y) * (step / dist)) =
          dy * ((dist - step) / dist) := by
        rw [hdy]
        field_simp
        ring
      rw [ex, ey, sqrt_scale dx dy ((dist - step) / dist)
        (div_nonneg (sub_nonneg.mpr hstep1) (le_of_lt hdpos))]
      rw [hdist_eq, ← hd]
      field_simp
    · intro h
      rw [hdist_eq] at h
      exact absurd h hdist

/-- C6: seek_food queries the nearest-food lookup from the agent's truncated
position; with no food it falls back to move_random; otherwise it moves
toward the returned target by exactly `min(SEEK_SPEED, distance)` along the
straight line — the new distance is the old minus that step, so it never
overshoots — and with a single stationary food item (always the returned
target) each call strictly decreases the distance while it is positive, and
at distance zero no movement occurs. -/
theorem seek_food_spec (cfg : Config) (t : Thronglet) (w : World) (p : ℤ × ℤ)
    (rdx rdy : ℤ) (ht : BoundsOK cfg t)
    (hp1 : 0 ≤ ((p.1 : ℤ) : ℝ)) (hp2 : ((p.1 : ℤ) : ℝ) ≤ cfg.WORLD_WIDTH)
    (hp3 : 0 ≤ ((p.2 : ℤ) : ℝ)) (hp4 : ((p.2 : ℤ) : ℝ) ≤ cfg.WORLD_HEIGHT)
    (hs0 : 0 ≤ cfg.SEEK_SPEED) :
    (w.food = [] → t.seek_food cfg w rdx rdy = t.move_random cfg rdx rdy) ∧
    (w.food = [p] → w.get_nearest_food (pyInt t.x) (pyInt t.y) = some p) ∧
    (w.get_nearest_food (pyInt t.x) (pyInt t.y) = some p →
      distTo (t.seek_food cfg w rdx rdy) p =
        distTo t p - min cfg.SEEK_SPEED (distTo t p) ∧
      distTo (t.seek_food cfg w rdx rdy) p ≤ distTo t p ∧
      (0 < cfg.SEEK_SPEED → 0 < distTo t p →
        distTo (t.seek_food cfg w rdx rdy) p < distTo t p) ∧
      (distTo t p = 0 → t.seek_food cfg w rdx rdy = t)) := by
  refine ⟨?_, ?_, ?_⟩
  · intro hf
    unfold Thronglet.seek_food
    have hnone : w.get_nearest_food (pyInt t.x) (pyInt t.y) = none := by
      unfold World.get_nearest_food
      rw [hf]
    rw [hnone]
  · intro hf
    unfold World.get_nearest_food
    rw [hf]
    rfl
  · intro hnear
    have hmain := seek_food_step cfg t w p rdx rdy hnear ht hp1 hp2 hp3 hp4 hs0
    have hmin0 : 0 ≤ min cfg.SEEK_SPEED (distTo t p) :=
      le_min hs0 (Real.sqrt_nonneg _)
    refine ⟨hmain.1, ?_, ?_, hmain.2⟩
    · rw [hmain.1]
      linarith
    · intro hsp hdp
      rw [hmain.1]
      have : 0 < min cfg.SEEK_SPEED (distTo t p) := lt_min hsp hdp
      linarith

/-- Witness for seek_food_spec: an agent at the origin and a single food item
at (3, 4) inside the reference world. -/
theorem seek_food_spec_witness :
    distTo (Thronglet.seek_food referenceConfig ⟨0, 0, 30, 0, 1⟩ ⟨[(3, 4)]⟩ 1 1) (3, 4) =
      distTo (⟨0, 0, 30, 0, 1⟩ : Thronglet) (3, 4) -
        min referenceConfig.SEEK_SPEED (distTo (⟨0, 0, 30, 0, 1⟩ : Thronglet) (3, 4)) := by
  have hb : BoundsOK referenceConfig ⟨0, 0, 30, 0, 1⟩ := by
    refine ⟨le_refl _, ?_, le_refl _, ?_⟩
    · show (0 : ℝ) ≤ 800
      norm_num
    · show (0 : ℝ) ≤ 600
      norm_num
  have h := seek_food_spec referenceConfig ⟨0, 0, 30, 0, 1⟩ ⟨[(3, 4)]⟩ (3, 4) 1 1 hb
    (by norm_num) (by show ((3 : ℤ) : ℝ) ≤ 800; norm_num)
    (by norm_num) (by show ((4 : ℤ) : ℝ) ≤ 600; norm_num)
    (by show (0 : ℝ) ≤ 2.5; norm_num)
  exact (h.2.2 (h.2.1 rfl)).1

end Thronglets
